import Mathlib

set_option maxHeartbeats 1600000
set_option maxRecDepth 8000

/-!
Shallow embedding of the RDM transaction engine of the RP2350 USB-LAN
ArtNet Node firmware (src/firmware/src/rdm.c, with constants from
src/firmware/src/config.h and types from src/firmware/src/rdm.h).

Machine integers are modelled as Nat with explicit reductions modulo
2^16 or 2^32 where the C arithmetic wraps; byte buffers are lists of
Nat (each element a byte value below 256 in every reachable C state);
the module-level mutable state of rdm.c is gathered into one record
and every C function becomes a pure state-passing function.  The
asynchronous parts (the UART receive interrupt, the wall clock, and
the behaviour of devices on the RS485 bus during a discovery cycle)
are inputs of each polling tick.
-/

namespace RdmNode

/- ── Constants from config.h / rdm.h / rdm.c ──────────────────────── -/

def RDM_RX_BUF_SIZE : Nat := 512
def RDM_MAX_PACKET_SIZE : Nat := 257
def RDM_REQUEST_BUFFER_SIZE : Nat := 5
def RDM_RETRY_COUNT : Nat := 2
def RDM_RESPONSE_TIMEOUT_MS : Nat := 100
def RDM_DISCOVERY_INTERVAL_MS : Nat := 10000
def RDM_TOD_MAX_DEVICES : Nat := 256
def RDM_SC_RDM : Nat := 0xCC
def RDM_SC_SUB_MESSAGE : Nat := 0x01
def RDM_CC_DISC_COMMAND : Nat := 0x10
def RDM_PID_DISC_UNIQUE_BRANCH : Nat := 0x0001
def RDM_PID_DISC_MUTE : Nat := 0x0002

/- ── RX ring buffer (rdm.c lines 62-113) ─────────────────────────────
s_rx_buf is a 512-byte array indexed by head/tail counters that stay
below 512; the array is modelled as a total function on Nat (only
indices below 512 are ever written or read). -/

structure RxQueue where
  buf : Nat → Nat
  head : Nat
  tail : Nat

def RxInv (q : RxQueue) : Prop :=
  q.head < RDM_RX_BUF_SIZE ∧ q.tail < RDM_RX_BUF_SIZE

/-- C function rx_push: drop the byte when the ring is full. -/
def rx_push (q : RxQueue) (b : Nat) : RxQueue :=
  let next := (q.tail + 1) % RDM_RX_BUF_SIZE
  if next ≠ q.head then
    { q with buf := fun j => if j = q.tail then b else q.buf j, tail := next }
  else q

/-- C function rx_pop: -1 (here none) when empty. -/
def rx_pop (q : RxQueue) : Option Nat × RxQueue :=
  if q.head = q.tail then (none, q)
  else (some (q.buf q.head), { q with head := (q.head + 1) % RDM_RX_BUF_SIZE })

/-- C function rx_available; the C expression (tail - head + 512) % 512 is
computed in int after integer promotion, which for head, tail < 512 equals
this Nat expression. -/
def rx_available (q : RxQueue) : Nat :=
  (q.tail + RDM_RX_BUF_SIZE - q.head) % RDM_RX_BUF_SIZE

/-- C function rx_flush. -/
def rx_flush (q : RxQueue) : RxQueue :=
  { q with head := 0, tail := 0 }

/-- Abstraction of the ring: the sequence of unread bytes, oldest first. -/
def absRx (q : RxQueue) : List Nat :=
  (List.range (rx_available q)).map (fun i => q.buf ((q.head + i) % RDM_RX_BUF_SIZE))

theorem absRx_length (q : RxQueue) : (absRx q).length = rx_available q := by
  simp [absRx]

theorem rx_available_lt (q : RxQueue) : rx_available q < RDM_RX_BUF_SIZE := by
  simp only [rx_available, RDM_RX_BUF_SIZE]
  omega

theorem rx_push_eq_full (q : RxQueue) (b : Nat)
    (h : (q.tail + 1) % RDM_RX_BUF_SIZE = q.head) : rx_push q b = q := by
  simp [rx_push, h]

theorem rx_push_eq_not_full (q : RxQueue) (b : Nat)
    (h : (q.tail + 1) % RDM_RX_BUF_SIZE ≠ q.head) :
    rx_push q b = ⟨fun j => if j = q.tail then b else q.buf j, q.head,
      (q.tail + 1) % RDM_RX_BUF_SIZE⟩ := by
  simp [rx_push, h]

theorem rx_pop_eq_empty (q : RxQueue) (h : q.head = q.tail) :
    rx_pop q = (none, q) := by
  simp [rx_pop, h]

theorem rx_pop_eq_nonempty (q : RxQueue) (h : q.head ≠ q.tail) :
    rx_pop q = (some (q.buf q.head),
      ⟨q.buf, (q.head + 1) % RDM_RX_BUF_SIZE, q.tail⟩) := by
  simp [rx_pop, h]

/-- Full means 511 unread bytes: the ring reserves one slot. -/
theorem rx_full_iff (q : RxQueue) (hq : RxInv q) :
    (q.tail + 1) % RDM_RX_BUF_SIZE = q.head ↔ rx_available q = 511 := by
  obtain ⟨h1, h2⟩ := hq
  simp only [rx_available, RDM_RX_BUF_SIZE] at *
  omega

theorem rx_push_full (q : RxQueue) (b : Nat) (hq : RxInv q)
    (hfull : rx_available q = 511) : rx_push q b = q :=
  rx_push_eq_full q b ((rx_full_iff q hq).mpr hfull)

theorem rx_push_not_full (q : RxQueue) (b : Nat) (hq : RxInv q)
    (hnf : rx_available q < 511) :
    absRx (rx_push q b) = absRx q ++ [b] ∧ RxInv (rx_push q b) := by
  obtain ⟨h1, h2⟩ := hq
  have hne : (q.tail + 1) % RDM_RX_BUF_SIZE ≠ q.head := by
    simp only [rx_available, RDM_RX_BUF_SIZE] at *
    omega
  rw [rx_push_eq_not_full q b hne]
  have havail : rx_available ⟨fun j => if j = q.tail then b else q.buf j, q.head,
      (q.tail + 1) % RDM_RX_BUF_SIZE⟩ = rx_available q + 1 := by
    simp only [rx_available, RDM_RX_BUF_SIZE] at *
    omega
  constructor
  · simp only [absRx, havail, List.range_succ, List.map_append, List.map_cons,
      List.map_nil]
    congr 1
    · apply List.map_congr_left
      intro i hi
      simp only [List.mem_range] at hi
      have hidx : (q.head + i) % RDM_RX_BUF_SIZE ≠ q.tail := by
        simp only [rx_available, RDM_RX_BUF_SIZE] at *
        omega
      simp only [if_neg hidx]
    · have hidx : (q.head + rx_available q) % RDM_RX_BUF_SIZE = q.tail := by
        simp only [rx_available, RDM_RX_BUF_SIZE] at *
        omega
      simp only [if_pos hidx]
  · exact ⟨h1, Nat.mod_lt _ (by decide)⟩

theorem rx_pop_spec (q : RxQueue) (hq : RxInv q) :
    (rx_pop q).1 = (absRx q).head? ∧ absRx (rx_pop q).2 = (absRx q).tail ∧
      RxInv (rx_pop q).2 := by
  obtain ⟨h1, h2⟩ := hq
  by_cases he : q.head = q.tail
  · have hav : rx_available q = 0 := by
      simp only [rx_available, RDM_RX_BUF_SIZE]
      omega
    rw [rx_pop_eq_empty q he]
    simp [absRx, hav, RxInv, h1, h2]
  · rw [rx_pop_eq_nonempty q he]
    have hav : 0 < rx_available q := by
      simp only [rx_available, RDM_RX_BUF_SIZE] at *
      omega
    obtain ⟨k, hk⟩ : ∃ k, rx_available q = k + 1 := ⟨rx_available q - 1, by omega⟩
    have havail2 : rx_available ⟨q.buf, (q.head + 1) % RDM_RX_BUF_SIZE, q.tail⟩
        = k := by
      simp only [rx_available, RDM_RX_BUF_SIZE] at *
      omega
    have hh : q.head % RDM_RX_BUF_SIZE = q.head := Nat.mod_eq_of_lt h1
    refine ⟨?_, ?_, ?_⟩
    · simp [absRx, hk, List.range_succ_eq_map, hh]
    · simp only [absRx, havail2, hk, List.range_succ_eq_map, List.map_cons,
        List.map_map, List.tail_cons]
      apply List.map_congr_left
      intro i hi
      simp only [Function.comp]
      congr 1
      simp only [RDM_RX_BUF_SIZE] at *
      omega
    · simp only [RxInv, RDM_RX_BUF_SIZE] at *
      omega

/- ── RDM checksum and response validation (rdm.c lines 82-89, 172-183) ── -/

/-- C function rdm_checksum: 16-bit arithmetic sum of the first len bytes
(the uint16_t accumulator wraps modulo 2^16). -/
def rdm_checksum (data : List Nat) (len : Nat) : Nat :=
  (data.take len).sum % 65536

/-- C function rdm_validate_response, called with the collected byte buffer
(len = number of bytes collected).  The received checksum is
(buf with index msg_len shifted left 8) or-ed with the next byte, which for
byte values equals msg_len-indexed byte times 256 plus the following byte. -/
def rdm_validate_response (buf : List Nat) : Bool :=
  if buf.length < 4 then false
  else if buf.getD 0 0 ≠ RDM_SC_RDM ∨ buf.getD 1 0 ≠ RDM_SC_SUB_MESSAGE then false
  else if buf.length < buf.getD 2 0 + 2 then false
  else decide (rdm_checksum buf (buf.getD 2 0) =
    buf.getD (buf.getD 2 0) 0 * 256 + buf.getD (buf.getD 2 0 + 1) 0)

/-- Modelled from the spec, for comparison with rdm_validate_response: a
response is valid iff it begins with the two RDM start-code bytes, its
declared message-length field (byte at index 2) is consistent with the
number of bytes collected, and the trailing 2-byte big-endian checksum at
indices msg_len and msg_len+1 equals the 16-bit arithmetic sum (mod 65536)
of the first msg_len bytes. -/
def validResponseSpec (buf : List Nat) : Prop :=
  buf.getD 0 0 = RDM_SC_RDM ∧ buf.getD 1 0 = RDM_SC_SUB_MESSAGE ∧
    buf.getD 2 0 + 2 ≤ buf.length ∧
    rdm_checksum buf (buf.getD 2 0) =
      buf.getD (buf.getD 2 0) 0 * 256 + buf.getD (buf.getD 2 0 + 1) 0

/- ── Data model (rdm.h, rdm.c module state) ──────────────────────────── -/

/-- One slot of the request ring buffer (rdm_request_t in rdm.h); the data
field holds exactly the length bytes copied in by rdm_enqueue_request. -/
structure RdmRequest where
  data : List Nat
  len : Nat
  src_ip : Nat
  src_port : Nat
  in_use : Bool
deriving DecidableEq

/-- The rdm_state_t enumeration of rdm.c (states RETRY, DISCOVERY and DONE
are declared but never entered). -/
inductive SmState where
  | idle
  | sending
  | waiting_response
  | retryState
  | discoveryState
  | done
deriving DecidableEq

/-- One TOD entry is a 6-byte UID. -/
abbrev Uid : Type := List Nat

/-- The module-level mutable state of rdm.c gathered into one record.
resp_buf holds the s_resp_len collected bytes (s_resp_len = resp_buf.length);
tod holds the s_tod_count valid entries of s_tod; tod_prev likewise; cb_set
models whether s_resp_cb is non-NULL. -/
structure RdmState where
  req_buf : Nat → RdmRequest
  req_head : Nat
  req_tail : Nat
  req_count : Nat
  sm : SmState
  retry : Nat
  timeout_start_ms : Nat
  active_idx : Nat
  resp_buf : List Nat
  rx : RxQueue
  tod : List Uid
  tod_changed : Bool
  tod_prev : List Uid
  discovery_last_ms : Nat
  discovery_active : Bool
  bus_busy : Bool
  cb_set : Bool

/-- Observable outputs of one polling tick: bytes driven onto the RS485 bus
and invocations of the response callback (the Response Router).  A router
event carries the payload (none models the NULL failure sentinel), the
length argument, and the destination ip and port. -/
inductive RdmEvent where
  | busSend (data : List Nat)
  | router (payload : Option (List Nat)) (len : Nat) (ip : Nat) (port : Nat)
deriving DecidableEq

/- ── Discovery (rdm.c lines 185-293) ─────────────────────────────────── -/

/-- C function build_disc_unique_branch: a 38-byte DISC_UNIQUE_BRANCH
request over the given 6-byte lower/upper UID bounds, with the big-endian
16-bit checksum over the 36 message bytes appended. -/
def build_disc_unique_branch (lower upper : List Nat) : List Nat :=
  let body := [RDM_SC_RDM, RDM_SC_SUB_MESSAGE, 36] ++ List.replicate 6 0xFF ++
    List.replicate 6 0 ++ [0, 0, 0, 0, 0, RDM_CC_DISC_COMMAND, 0,
      RDM_PID_DISC_UNIQUE_BRANCH, 12] ++ lower ++ upper
  let chk := body.sum % 65536
  body ++ [chk / 256, chk % 256]

/-- C function build_disc_mute: a 26-byte DISC_MUTE request addressed to
the given 6-byte UID. -/
def build_disc_mute (uid : Uid) : List Nat :=
  let body := [RDM_SC_RDM, RDM_SC_SUB_MESSAGE, 24] ++ uid ++
    List.replicate 6 0 ++ [0, 0, 0, 0, 0, RDM_CC_DISC_COMMAND, 0,
      RDM_PID_DISC_MUTE, 0]
  let chk := body.sum % 65536
  body ++ [chk / 256, chk % 256]

/-- UID decoding of run_discovery_cycle: for a branch reply of at least 17
bytes each UID byte combines the low nibbles of two consecutive response
bytes after the 1-byte preamble offset; shorter replies fall back to the
all-zero UID (the memset branch of the C loop). -/
def decode_uid (resp : List Nat) : Uid :=
  if 17 ≤ resp.length then
    (List.range 6).map (fun i =>
      resp.getD (1 + i * 2) 0 % 16 + resp.getD (2 + i * 2) 0 % 16 * 16)
  else List.replicate 6 0

/-- C function disc_tod_add: append to the in-progress TOD, capped at
RDM_TOD_MAX_DEVICES entries. -/
def disc_tod_add (tod : List Uid) (uid : Uid) : List Uid :=
  if RDM_TOD_MAX_DEVICES ≤ tod.length then tod else tod ++ [uid]

/-- Result of one discovery cycle: the new TOD, the packets sent on the
bus in order, and the number of branch attempts performed. -/
structure DiscResult where
  tod : List Uid
  sends : List (List Nat)
  attempts : Nat
deriving DecidableEq

/-- The attempt loop of run_discovery_cycle.  The bus argument gives the
reply collected by rdm_bus_receive for the branch request of each attempt
(an empty list when no device answers within the 30 ms window); mute
responses are consumed and discarded by the C code, so they do not appear.
The fuel starts at 64, the attempt cap. -/
def discLoop (bus : Nat → List Nat) : Nat → Nat → List Uid → DiscResult
  | _, 0, tod => ⟨tod, [], 0⟩
  | attempt, fuel + 1, tod =>
    let pkt := build_disc_unique_branch (List.replicate 6 0)
      (List.replicate 6 0xFF)
    let resp := bus attempt
    if resp.length < 7 then ⟨tod, [pkt], 1⟩
    else
      let uid := decode_uid resp
      let mpkt := build_disc_mute uid
      let r := discLoop bus (attempt + 1) fuel (disc_tod_add tod uid)
      ⟨r.tod, pkt :: mpkt :: r.sends, r.attempts + 1⟩

/-- C function run_discovery_cycle (the in-progress TOD count starts at 0;
the static lower/upper bounds are all-zero and all-0xFF and never change). -/
def run_discovery_cycle (bus : Nat → List Nat) : DiscResult :=
  discLoop bus 0 64 []

/- ── Public API (rdm.c lines 307-344) ────────────────────────────────── -/

/-- C function rdm_enqueue_request: reject when the ring is at capacity or
the length exceeds RDM_MAX_PACKET_SIZE, else copy len bytes into the tail
slot and advance the tail. -/
def rdm_enqueue_request (s : RdmState) (data : List Nat) (len : Nat)
    (src_ip src_port : Nat) : RdmState × Bool :=
  if RDM_REQUEST_BUFFER_SIZE ≤ s.req_count then (s, false)
  else if RDM_MAX_PACKET_SIZE < len then (s, false)
  else
    ({ s with
        req_buf := fun j => if j = s.req_tail then
          ⟨data.take len, len, src_ip, src_port, true⟩ else s.req_buf j,
        req_tail := (s.req_tail + 1) % RDM_REQUEST_BUFFER_SIZE,
        req_count := s.req_count + 1 }, true)

/-- C function rdm_get_tod: returns the current table and its count, and
clears the changed flag as a side effect. -/
def rdm_get_tod (s : RdmState) : (List Uid × Nat) × RdmState :=
  ((s.tod, s.tod.length), { s with tod_changed := false })

/-- C function rdm_flush_tod: clears the table, sets the changed flag and
zeroes the discovery timestamp. -/
def rdm_flush_tod (s : RdmState) : RdmState :=
  { s with tod := [], tod_changed := true, discovery_last_ms := 0 }

/-- C function rdm_tod_changed: a non-destructive read of the flag. -/
def rdm_tod_changed (s : RdmState) : Bool :=
  s.tod_changed

/- ── rdm_task (rdm.c lines 346-435) ──────────────────────────────────── -/

/-- Effect of rdm_bus_send on the module state: the bus-busy flag is set
and the RX ring is flushed after the echo settle window; the bytes go out
as a bus event. -/
def rdm_bus_send (s : RdmState) (data : List Nat) : RdmState × RdmEvent :=
  ({ s with bus_busy := true, rx := rx_flush s.rx }, RdmEvent.busSend data)

/-- The byte-collection loop of the WAITING_RESPONSE branch: pop from the
RX ring into the response buffer while bytes are available and the buffer
is below RDM_MAX_PACKET_SIZE.  Fuel 512 dominates the ring capacity, so
the loop always exits by its own condition. -/
def drainAux : Nat → RxQueue → List Nat → RxQueue × List Nat
  | 0, q, resp => (q, resp)
  | fuel + 1, q, resp =>
    if 0 < rx_available q ∧ resp.length < RDM_MAX_PACKET_SIZE then
      match rx_pop q with
      | (some b, q2) => drainAux fuel q2 (resp ++ [b])
      | (none, q2) => drainAux fuel q2 resp
    else (q, resp)

def drain (q : RxQueue) (resp : List Nat) : RxQueue × List Nat :=
  drainAux RDM_RX_BUF_SIZE q resp

/-- Elapsed-time computation on the uint32_t millisecond clock:
(now - past) wraps modulo 2^32. -/
def elapsed32 (now past : Nat) : Nat :=
  (now + 4294967296 - past % 4294967296) % 4294967296

/-- C function rdm_task, one polling tick.  Inputs beyond the state: now is
the to_ms_since_boot value at tick entry (line 349), now2 the value read
after a blocking bus operation inside the tick (lines 362 and 431), and bus
the per-attempt branch replies seen if a discovery cycle runs this tick.
During a discovery cycle the byte-level bus traffic is abstracted by the
bus oracle; the RX ring is left in its flushed state afterwards (the last
rdm_bus_send of the cycle flushed it and rdm_bus_receive drained the
replies the oracle reports).  Returns the new state and the observable
events of the tick. -/
def rdm_task (now now2 : Nat) (bus : Nat → List Nat) (s0 : RdmState) :
    RdmState × List RdmEvent :=
  -- Process queued host requests
  let s := if s0.sm = SmState.idle ∧ 0 < s0.req_count then
    { s0 with active_idx := s0.req_head, retry := 0, sm := SmState.sending }
    else s0
  if s.sm = SmState.sending then
    let req := s.req_buf s.active_idx
    let s1 := { s with rx := rx_flush s.rx }
    let p := rdm_bus_send s1 req.data
    ({ p.1 with
        timeout_start_ms := now2, resp_buf := [],
        sm := SmState.waiting_response }, [p.2])
  else if s.sm = SmState.waiting_response then
    let el := elapsed32 now s.timeout_start_ms
    let d := drain s.rx s.resp_buf
    let s1 := { s with rx := d.1, resp_buf := d.2 }
    let valid := rdm_validate_response s1.resp_buf
    if valid = true ∨ RDM_RESPONSE_TIMEOUT_MS ≤ el then
      if valid = false ∧ s1.retry < RDM_RETRY_COUNT then
        ({ s1 with retry := s1.retry + 1, sm := SmState.sending }, [])
      else
        let req := s1.req_buf s1.active_idx
        let evs := if s1.cb_set then
          [if valid = true then
            RdmEvent.router (some s1.resp_buf) s1.resp_buf.length
              req.src_ip req.src_port
          else RdmEvent.router none 0 req.src_ip req.src_port]
          else []
        ({ s1 with
            req_buf := fun j => if j = s1.active_idx then
              { req with in_use := false } else s1.req_buf j,
            req_head := (s1.req_head + 1) % RDM_REQUEST_BUFFER_SIZE,
            req_count := s1.req_count - 1,
            sm := SmState.idle, bus_busy := false }, evs)
    else (s1, [])
  else
    -- Background discovery
    let s1 := if s.sm = SmState.idle ∧ s.discovery_active = false ∧
        RDM_DISCOVERY_INTERVAL_MS ≤ elapsed32 now s.discovery_last_ms then
      { s with discovery_active := true } else s
    if s1.sm = SmState.idle ∧ s1.discovery_active = true then
      let r := run_discovery_cycle bus
      let changed : Bool := s1.tod_changed ||
        decide (r.tod.length ≠ s1.tod.length ∨ r.tod ≠ s1.tod)
      ({ s1 with
          tod_prev := s1.tod, tod := r.tod, tod_changed := changed,
          rx := rx_flush s1.rx, discovery_last_ms := now2,
          discovery_active := false, bus_busy := false },
        r.sends.map RdmEvent.busSend)
    else (s1, [])

/-- UART IRQ feed between ticks: bytes arriving on the wire are pushed into
the RX ring in order by uart1_irq_handler. -/
def pushAll (q : RxQueue) (bs : List Nat) : RxQueue :=
  bs.foldl rx_push q

/-- Environment of one polling tick: the bytes the receive interrupt
delivered since the previous tick, the two clock readings, and the bus
behaviour seen by a discovery cycle. -/
structure TickEnv where
  arrivals : List Nat
  now : Nat
  now2 : Nat
  bus : Nat → List Nat

/-- Run a sequence of main-loop iterations: before each rdm_task call the
interrupt handler deposits the newly arrived bytes. -/
def runTicks (s : RdmState) : List TickEnv → RdmState × List RdmEvent
  | [] => (s, [])
  | e :: es =>
    let p := rdm_task e.now e.now2 e.bus { s with rx := pushAll s.rx e.arrivals }
    let rest := runTicks p.1 es
    (rest.1, p.2 ++ rest.2)

def stateAfter (s : RdmState) (envs : List TickEnv) : RdmState :=
  (runTicks s envs).1

/- ── Request queue abstraction ───────────────────────────────────────── -/

/-- Abstraction of the request ring: pending requests in FIFO order. -/
def absQ (s : RdmState) : List RdmRequest :=
  (List.range s.req_count).map
    (fun i => s.req_buf ((s.req_head + i) % RDM_REQUEST_BUFFER_SIZE))

/-- Ring-structure invariant of the request queue. -/
def QInv (s : RdmState) : Prop :=
  s.req_head < RDM_REQUEST_BUFFER_SIZE ∧
    s.req_count ≤ RDM_REQUEST_BUFFER_SIZE ∧
    s.req_tail = (s.req_head + s.req_count) % RDM_REQUEST_BUFFER_SIZE

/- ── Tick-level characterisations of rdm_task ────────────────────────── -/

def isRouterEv : RdmEvent → Bool
  | RdmEvent.router _ _ _ _ => true
  | _ => false

/-- Bus send attempts still to come for the active transaction if every
response fails: a SENDING state will send once more than a WAITING one. -/
def sendsLeft (s : RdmState) : Nat :=
  if s.sm = SmState.sending then 3 - s.retry else 2 - s.retry

theorem sendsLeft_sending (s : RdmState) (h : s.sm = SmState.sending) :
    sendsLeft s = 3 - s.retry := by
  simp [sendsLeft, h]

theorem sendsLeft_waiting (s : RdmState) (h : s.sm = SmState.waiting_response) :
    sendsLeft s = 2 - s.retry := by
  simp [sendsLeft, h]

/-- Condition under which a tick entered at time now runs a discovery
cycle: idle, empty queue, and the interval elapsed or a cycle already
pending. -/
def discoveryRunsB (now : Nat) (s : RdmState) : Bool :=
  decide (s.sm = SmState.idle) && decide (s.req_count = 0) &&
    (s.discovery_active ||
      decide (RDM_DISCOVERY_INTERVAL_MS ≤ elapsed32 now s.discovery_last_ms))

theorem tick_idle_pickup (now now2 : Nat) (bus : Nat → List Nat)
    (s : RdmState) (hsm : s.sm = SmState.idle) (hc : 0 < s.req_count) :
    rdm_task now now2 bus s =
      ({ s with
          active_idx := s.req_head, retry := 0, rx := rx_flush s.rx,
          bus_busy := true, timeout_start_ms := now2, resp_buf := [],
          sm := SmState.waiting_response },
        [RdmEvent.busSend (s.req_buf s.req_head).data]) := by
  simp [rdm_task, hsm, hc, rdm_bus_send, rx_flush]

theorem tick_sending (now now2 : Nat) (bus : Nat → List Nat)
    (s : RdmState) (hsm : s.sm = SmState.sending) :
    rdm_task now now2 bus s =
      ({ s with
          rx := rx_flush s.rx, bus_busy := true, timeout_start_ms := now2,
          resp_buf := [], sm := SmState.waiting_response },
        [RdmEvent.busSend (s.req_buf s.active_idx).data]) := by
  simp [rdm_task, hsm, rdm_bus_send, rx_flush]

theorem tick_waiting_stutter (now now2 : Nat) (bus : Nat → List Nat)
    (s : RdmState) (hsm : s.sm = SmState.waiting_response)
    (hv : rdm_validate_response (drain s.rx s.resp_buf).2 = false)
    (hel : elapsed32 now s.timeout_start_ms < RDM_RESPONSE_TIMEOUT_MS) :
    rdm_task now now2 bus s =
      ({ s with
          rx := (drain s.rx s.resp_buf).1,
          resp_buf := (drain s.rx s.resp_buf).2 }, []) := by
  simp [rdm_task, hsm, hv, Nat.not_le_of_lt hel]

theorem tick_waiting_retry (now now2 : Nat) (bus : Nat → List Nat)
    (s : RdmState) (hsm : s.sm = SmState.waiting_response)
    (hv : rdm_validate_response (drain s.rx s.resp_buf).2 = false)
    (hel : RDM_RESPONSE_TIMEOUT_MS ≤ elapsed32 now s.timeout_start_ms)
    (hr : s.retry < RDM_RETRY_COUNT) :
    rdm_task now now2 bus s =
      ({ s with
          rx := (drain s.rx s.resp_buf).1,
          resp_buf := (drain s.rx s.resp_buf).2,
          retry := s.retry + 1, sm := SmState.sending }, []) := by
  simp [rdm_task, hsm, hv, hel, hr]

theorem tick_waiting_fail (now now2 : Nat) (bus : Nat → List Nat)
    (s : RdmState) (hsm : s.sm = SmState.waiting_response)
    (hv : rdm_validate_response (drain s.rx s.resp_buf).2 = false)
    (hel : RDM_RESPONSE_TIMEOUT_MS ≤ elapsed32 now s.timeout_start_ms)
    (hr : ¬s.retry < RDM_RETRY_COUNT) :
    rdm_task now now2 bus s =
      ({ s with
          rx := (drain s.rx s.resp_buf).1,
          resp_buf := (drain s.rx s.resp_buf).2,
          req_buf := fun j => if j = s.active_idx then
            { s.req_buf s.active_idx with in_use := false } else s.req_buf j,
          req_head := (s.req_head + 1) % RDM_REQUEST_BUFFER_SIZE,
          req_count := s.req_count - 1,
          sm := SmState.idle, bus_busy := false },
        if s.cb_set then
          [RdmEvent.router none 0 (s.req_buf s.active_idx).src_ip
            (s.req_buf s.active_idx).src_port]
        else []) := by
  simp [rdm_task, hsm, hv, hel, hr]

theorem tick_waiting_valid (now now2 : Nat) (bus : Nat → List Nat)
    (s : RdmState) (hsm : s.sm = SmState.waiting_response)
    (hv : rdm_validate_response (drain s.rx s.resp_buf).2 = true) :
    rdm_task now now2 bus s =
      ({ s with
          rx := (drain s.rx s.resp_buf).1,
          resp_buf := (drain s.rx s.resp_buf).2,
          req_buf := fun j => if j = s.active_idx then
            { s.req_buf s.active_idx with in_use := false } else s.req_buf j,
          req_head := (s.req_head + 1) % RDM_REQUEST_BUFFER_SIZE,
          req_count := s.req_count - 1,
          sm := SmState.idle, bus_busy := false },
        if s.cb_set then
          [RdmEvent.router (some (drain s.rx s.resp_buf).2)
            (drain s.rx s.resp_buf).2.length
            (s.req_buf s.active_idx).src_ip (s.req_buf s.active_idx).src_port]
        else []) := by
  simp [rdm_task, hsm, hv]

theorem tick_discovery_run (now now2 : Nat) (bus : Nat → List Nat)
    (s : RdmState) (hsm : s.sm = SmState.idle) (hc : s.req_count = 0)
    (hrun : s.discovery_active = true ∨
      RDM_DISCOVERY_INTERVAL_MS ≤ elapsed32 now s.discovery_last_ms) :
    rdm_task now now2 bus s =
      ({ s with
          tod_prev := s.tod, tod := (run_discovery_cycle bus).tod,
          tod_changed := s.tod_changed ||
            decide ((run_discovery_cycle bus).tod.length ≠ s.tod.length ∨
              (run_discovery_cycle bus).tod ≠ s.tod),
          rx := rx_flush s.rx, discovery_last_ms := now2,
          discovery_active := false, bus_busy := false },
        (run_discovery_cycle bus).sends.map RdmEvent.busSend) := by
  rcases hrun with h | h
  · simp [rdm_task, hsm, hc, h]
  · by_cases ha : s.discovery_active = true
    · simp [rdm_task, hsm, hc, ha, h]
    · simp only [Bool.not_eq_true] at ha
      simp [rdm_task, hsm, hc, ha, h]

theorem tick_discovery_skip (now now2 : Nat) (bus : Nat → List Nat)
    (s : RdmState) (hsm : s.sm = SmState.idle) (hc : s.req_count = 0)
    (ha : s.discovery_active = false)
    (hel : elapsed32 now s.discovery_last_ms < RDM_DISCOVERY_INTERVAL_MS) :
    rdm_task now now2 bus s = (s, []) := by
  simp [rdm_task, hsm, hc, ha, Nat.not_le_of_lt hel]

theorem tick_other (now now2 : Nat) (bus : Nat → List Nat)
    (s : RdmState) (hsm : s.sm ≠ SmState.idle) (hsm2 : s.sm ≠ SmState.sending)
    (hsm3 : s.sm ≠ SmState.waiting_response) :
    rdm_task now now2 bus s = (s, []) := by
  simp [rdm_task, hsm, hsm2, hsm3]

theorem tick_waiting_resp_buf (now now2 : Nat) (bus : Nat → List Nat)
    (s : RdmState) (hsm : s.sm = SmState.waiting_response) :
    (rdm_task now now2 bus s).1.resp_buf = (drain s.rx s.resp_buf).2 := by
  by_cases hv : rdm_validate_response (drain s.rx s.resp_buf).2 = true
  · rw [tick_waiting_valid now now2 bus s hsm hv]
  · rw [Bool.not_eq_true] at hv
    by_cases hel : RDM_RESPONSE_TIMEOUT_MS ≤ elapsed32 now s.timeout_start_ms
    · by_cases hrt : s.retry < RDM_RETRY_COUNT
      · rw [tick_waiting_retry now now2 bus s hsm hv hel hrt]
      · rw [tick_waiting_fail now now2 bus s hsm hv hel hrt]
    · rw [tick_waiting_stutter now now2 bus s hsm hv (by omega)]

theorem runTicks_cons (s : RdmState) (e : TickEnv) (es : List TickEnv) :
    runTicks s (e :: es) =
      ((runTicks (rdm_task e.now e.now2 e.bus
          { s with rx := pushAll s.rx e.arrivals }).1 es).1,
        (rdm_task e.now e.now2 e.bus
          { s with rx := pushAll s.rx e.arrivals }).2 ++
        (runTicks (rdm_task e.now e.now2 e.bus
          { s with rx := pushAll s.rx e.arrivals }).1 es).2) := rfl

theorem stateAfter_cons (s : RdmState) (e : TickEnv) (es : List TickEnv) :
    stateAfter s (e :: es) =
      stateAfter (rdm_task e.now e.now2 e.bus
        { s with rx := pushAll s.rx e.arrivals }).1 es := rfl

theorem stateAfter_one (s : RdmState) (e : TickEnv) :
    stateAfter s [e] =
      (rdm_task e.now e.now2 e.bus
        { s with rx := pushAll s.rx e.arrivals }).1 := rfl

/-- Failure path of one transaction: from a mid-transaction state, if no
collected response ever validates and the run ends exactly when the state
machine first returns to idle, the remaining events are sendsLeft identical
resends followed by exactly one failure-sentinel router invocation, and the
queue head is popped. -/
theorem runTicks_fail (envs : List TickEnv) (s : RdmState)
    (hcb : s.cb_set = true) (hah : s.active_idx = s.req_head)
    (hsm : s.sm = SmState.sending ∨ s.sm = SmState.waiting_response)
    (hr : s.retry ≤ RDM_RETRY_COUNT)
    (hmin : ∀ j, 0 < j → j < envs.length →
      (stateAfter s (envs.take j)).sm ≠ SmState.idle)
    (hdone : (stateAfter s envs).sm = SmState.idle)
    (hnv : ∀ j, 0 < j → j ≤ envs.length →
      rdm_validate_response ((stateAfter s (envs.take j)).resp_buf) = false) :
    (runTicks s envs).2 = List.replicate (sendsLeft s)
        (RdmEvent.busSend (s.req_buf s.req_head).data) ++
      [RdmEvent.router none 0 (s.req_buf s.req_head).src_ip
        (s.req_buf s.req_head).src_port] ∧
    (runTicks s envs).1.req_count = s.req_count - 1 ∧
    (runTicks s envs).1.req_head =
      (s.req_head + 1) % RDM_REQUEST_BUFFER_SIZE := by
  induction envs generalizing s with
  | nil =>
    exfalso
    rcases hsm with h | h <;> simp [stateAfter, runTicks, h] at hdone
  | cons e es ih =>
    have hlen : (e :: es).length = es.length + 1 := rfl
    rcases hsm with h | h
    · -- SENDING tick: emits one resend, moves to WAITING_RESPONSE
      have ht := tick_sending e.now e.now2 e.bus
        { s with rx := pushAll s.rx e.arrivals } h
      rw [runTicks_cons, ht]
      dsimp only
      have hmin2 : ∀ j, 0 < j → j < es.length →
          (stateAfter { s with
            rx := rx_flush (pushAll s.rx e.arrivals), bus_busy := true,
            timeout_start_ms := e.now2, resp_buf := [],
            sm := SmState.waiting_response } (es.take j)).sm ≠ SmState.idle := by
        intro j hj hjl
        have H := hmin (j + 1) (by omega) (by rw [hlen]; omega)
        rw [List.take_succ_cons, stateAfter_cons, ht] at H
        exact H
      have hdone2 : (stateAfter { s with
          rx := rx_flush (pushAll s.rx e.arrivals), bus_busy := true,
          timeout_start_ms := e.now2, resp_buf := [],
          sm := SmState.waiting_response } es).sm = SmState.idle := by
        rw [stateAfter_cons, ht] at hdone
        exact hdone
      have hnv2 : ∀ j, 0 < j → j ≤ es.length →
          rdm_validate_response ((stateAfter { s with
            rx := rx_flush (pushAll s.rx e.arrivals), bus_busy := true,
            timeout_start_ms := e.now2, resp_buf := [],
            sm := SmState.waiting_response } (es.take j)).resp_buf) = false := by
        intro j hj hjl
        have H := hnv (j + 1) (by omega) (by rw [hlen]; omega)
        rw [List.take_succ_cons, stateAfter_cons, ht] at H
        exact H
      obtain ⟨hev, hcnt, hhd⟩ := ih { s with
          rx := rx_flush (pushAll s.rx e.arrivals), bus_busy := true,
          timeout_start_ms := e.now2, resp_buf := [],
          sm := SmState.waiting_response } hcb hah (Or.inr rfl) hr
        hmin2 hdone2 hnv2
      refine ⟨?_, hcnt, hhd⟩
      rw [hev]
      have hstep : sendsLeft s = sendsLeft { s with
          rx := rx_flush (pushAll s.rx e.arrivals), bus_busy := true,
          timeout_start_ms := e.now2, resp_buf := [],
          sm := SmState.waiting_response } + 1 := by
        have hr2 : s.retry ≤ 2 := by simpa [RDM_RETRY_COUNT] using hr
        rw [sendsLeft_sending s h, sendsLeft_waiting _ rfl]
        dsimp only
        omega
      rw [hstep, List.replicate_succ, hah]
      simp
    · -- WAITING_RESPONSE tick
      have hv : rdm_validate_response
          (drain (pushAll s.rx e.arrivals) s.resp_buf).2 = false := by
        have H := hnv 1 one_pos (by rw [hlen]; omega)
        rw [show (e :: es).take 1 = [e] from rfl, stateAfter_one,
          tick_waiting_resp_buf e.now e.now2 e.bus
            { s with rx := pushAll s.rx e.arrivals } h] at H
        exact H
      by_cases hel : RDM_RESPONSE_TIMEOUT_MS ≤ elapsed32 e.now s.timeout_start_ms
      · by_cases hrt : s.retry < RDM_RETRY_COUNT
        · -- timeout, retries remain: back to SENDING
          have ht := tick_waiting_retry e.now e.now2 e.bus
            { s with rx := pushAll s.rx e.arrivals } h hv hel hrt
          rw [runTicks_cons, ht]
          dsimp only
          have hmin2 : ∀ j, 0 < j → j < es.length →
              (stateAfter { s with
                rx := (drain (pushAll s.rx e.arrivals) s.resp_buf).1,
                resp_buf := (drain (pushAll s.rx e.arrivals) s.resp_buf).2,
                retry := s.retry + 1, sm := SmState.sending }
                (es.take j)).sm ≠ SmState.idle := by
            intro j hj hjl
            have H := hmin (j + 1) (by omega) (by rw [hlen]; omega)
            rw [List.take_succ_cons, stateAfter_cons, ht] at H
            exact H
          have hdone2 : (stateAfter { s with
              rx := (drain (pushAll s.rx e.arrivals) s.resp_buf).1,
              resp_buf := (drain (pushAll s.rx e.arrivals) s.resp_buf).2,
              retry := s.retry + 1, sm := SmState.sending } es).sm
              = SmState.idle := by
            rw [stateAfter_cons, ht] at hdone
            exact hdone
          have hnv2 : ∀ j, 0 < j → j ≤ es.length →
              rdm_validate_response ((stateAfter { s with
                rx := (drain (pushAll s.rx e.arrivals) s.resp_buf).1,
                resp_buf := (drain (pushAll s.rx e.arrivals) s.resp_buf).2,
                retry := s.retry + 1, sm := SmState.sending }
                (es.take j)).resp_buf) = false := by
            intro j hj hjl
            have H := hnv (j + 1) (by omega) (by rw [hlen]; omega)
            rw [List.take_succ_cons, stateAfter_cons, ht] at H
            exact H
          obtain ⟨hev, hcnt, hhd⟩ := ih { s with
              rx := (drain (pushAll s.rx e.arrivals) s.resp_buf).1,
              resp_buf := (drain (pushAll s.rx e.arrivals) s.resp_buf).2,
              retry := s.retry + 1, sm := SmState.sending } hcb hah
            (Or.inl rfl) hrt hmin2 hdone2 hnv2
          refine ⟨?_, hcnt, hhd⟩
          rw [hev]
          have hstep : sendsLeft { s with
              rx := (drain (pushAll s.rx e.arrivals) s.resp_buf).1,
              resp_buf := (drain (pushAll s.rx e.arrivals) s.resp_buf).2,
              retry := s.retry + 1, sm := SmState.sending } = sendsLeft s := by
            rw [sendsLeft_sending _ rfl, sendsLeft_waiting s h]
            dsimp only
            omega
          rw [hstep]
          simp
        · -- timeout, retries exhausted: failure delivery, back to IDLE
          have ht := tick_waiting_fail e.now e.now2 e.bus
            { s with rx := pushAll s.rx e.arrivals } h hv hel hrt
          cases es with
          | cons e2 es2 =>
            exfalso
            have H := hmin 1 one_pos (by rw [hlen]; simp)
            rw [show (e :: e2 :: es2).take 1 = [e] from rfl, stateAfter_one,
              ht] at H
            exact H rfl
          | nil =>
            rw [runTicks_cons, ht]
            have hr2 : s.retry = 2 := by
              simp only [RDM_RETRY_COUNT] at hr hrt
              omega
            have hsl : sendsLeft s = 0 := by
              rw [sendsLeft_waiting s h]
              omega
            rw [hsl]
            simp [runTicks, hcb, hah]
      · -- no timeout yet: stutter, keep collecting
        have ht := tick_waiting_stutter e.now e.now2 e.bus
          { s with rx := pushAll s.rx e.arrivals } h hv (Nat.lt_of_not_le hel)
        rw [runTicks_cons, ht]
        dsimp only
        have hmin2 : ∀ j, 0 < j → j < es.length →
            (stateAfter { s with
              rx := (drain (pushAll s.rx e.arrivals) s.resp_buf).1,
              resp_buf := (drain (pushAll s.rx e.arrivals) s.resp_buf).2 }
              (es.take j)).sm ≠ SmState.idle := by
          intro j hj hjl
          have H := hmin (j + 1) (by omega) (by rw [hlen]; omega)
          rw [List.take_succ_cons, stateAfter_cons, ht] at H
          exact H
        have hdone2 : (stateAfter { s with
            rx := (drain (pushAll s.rx e.arrivals) s.resp_buf).1,
            resp_buf := (drain (pushAll s.rx e.arrivals) s.resp_buf).2 } es).sm
            = SmState.idle := by
          rw [stateAfter_cons, ht] at hdone
          exact hdone
        have hnv2 : ∀ j, 0 < j → j ≤ es.length →
            rdm_validate_response ((stateAfter { s with
              rx := (drain (pushAll s.rx e.arrivals) s.resp_buf).1,
              resp_buf := (drain (pushAll s.rx e.arrivals) s.resp_buf).2 }
              (es.take j)).resp_buf) = false := by
          intro j hj hjl
          have H := hnv (j + 1) (by omega) (by rw [hlen]; omega)
          rw [List.take_succ_cons, stateAfter_cons, ht] at H
          exact H
        obtain ⟨hev, hcnt, hhd⟩ := ih { s with
            rx := (drain (pushAll s.rx e.arrivals) s.resp_buf).1,
            resp_buf := (drain (pushAll s.rx e.arrivals) s.resp_buf).2 } hcb hah
          (Or.inr h) hr hmin2 hdone2 hnv2
        refine ⟨?_, hcnt, hhd⟩
        rw [hev]
        have hstep : sendsLeft { s with
            rx := (drain (pushAll s.rx e.arrivals) s.resp_buf).1,
            resp_buf := (drain (pushAll s.rx e.arrivals) s.resp_buf).2 }
            = sendsLeft s := rfl
        rw [hstep]
        simp

/-- Success path of one transaction: from a mid-transaction state, if the
run ends exactly when the state machine first returns to idle and the
response buffer validates there, the Response Router is invoked exactly
once, with the full collected buffer and its length, and the queue head is
popped. -/
theorem runTicks_succeed (envs : List TickEnv) (s : RdmState)
    (hcb : s.cb_set = true) (hah : s.active_idx = s.req_head)
    (hsm : s.sm = SmState.sending ∨ s.sm = SmState.waiting_response)
    (hmin : ∀ j, 0 < j → j < envs.length →
      (stateAfter s (envs.take j)).sm ≠ SmState.idle)
    (hdone : (stateAfter s envs).sm = SmState.idle)
    (hv : rdm_validate_response ((stateAfter s envs).resp_buf) = true) :
    (runTicks s envs).2.filter isRouterEv =
      [RdmEvent.router (some ((stateAfter s envs).resp_buf))
        ((stateAfter s envs).resp_buf).length
        (s.req_buf s.req_head).src_ip (s.req_buf s.req_head).src_port] ∧
    (runTicks s envs).1.req_count = s.req_count - 1 ∧
    (runTicks s envs).1.req_head =
      (s.req_head + 1) % RDM_REQUEST_BUFFER_SIZE := by
  induction envs generalizing s with
  | nil =>
    exfalso
    rcases hsm with h | h <;> simp [stateAfter, runTicks, h] at hdone
  | cons e es ih =>
    have hlen : (e :: es).length = es.length + 1 := rfl
    rcases hsm with h | h
    · -- SENDING tick: the bus event is not a router invocation
      have ht := tick_sending e.now e.now2 e.bus
        { s with rx := pushAll s.rx e.arrivals } h
      rw [runTicks_cons, stateAfter_cons, ht]
      dsimp only
      have hmin2 : ∀ j, 0 < j → j < es.length →
          (stateAfter { s with
            rx := rx_flush (pushAll s.rx e.arrivals), bus_busy := true,
            timeout_start_ms := e.now2, resp_buf := [],
            sm := SmState.waiting_response } (es.take j)).sm ≠ SmState.idle := by
        intro j hj hjl
        have H := hmin (j + 1) (by omega) (by rw [hlen]; omega)
        rw [List.take_succ_cons, stateAfter_cons, ht] at H
        exact H
      rw [stateAfter_cons, ht] at hdone hv
      obtain ⟨hev, hcnt, hhd⟩ := ih { s with
          rx := rx_flush (pushAll s.rx e.arrivals), bus_busy := true,
          timeout_start_ms := e.now2, resp_buf := [],
          sm := SmState.waiting_response } hcb hah (Or.inr rfl)
        hmin2 hdone hv
      refine ⟨?_, hcnt, hhd⟩
      rw [List.filter_append, hev]
      rfl
    · -- WAITING_RESPONSE tick
      by_cases hvd : rdm_validate_response
          (drain (pushAll s.rx e.arrivals) s.resp_buf).2 = true
      · -- the collected response validates: success delivery this tick
        have ht := tick_waiting_valid e.now e.now2 e.bus
          { s with rx := pushAll s.rx e.arrivals } h hvd
        cases es with
        | cons e2 es2 =>
          exfalso
          have H := hmin 1 one_pos (by rw [hlen]; simp)
          rw [show (e :: e2 :: es2).take 1 = [e] from rfl, stateAfter_one,
            ht] at H
          exact H rfl
        | nil =>
          rw [runTicks_cons, stateAfter_cons, ht]
          simp [runTicks, stateAfter, isRouterEv, hcb, hah, List.filter]
      · -- not yet valid this tick
        rw [Bool.not_eq_true] at hvd
        by_cases hel : RDM_RESPONSE_TIMEOUT_MS ≤
            elapsed32 e.now s.timeout_start_ms
        · by_cases hrt : s.retry < RDM_RETRY_COUNT
          · -- timeout with retries remaining
            have ht := tick_waiting_retry e.now e.now2 e.bus
              { s with rx := pushAll s.rx e.arrivals } h hvd hel hrt
            rw [runTicks_cons, stateAfter_cons, ht]
            dsimp only
            have hmin2 : ∀ j, 0 < j → j < es.length →
                (stateAfter { s with
                  rx := (drain (pushAll s.rx e.arrivals) s.resp_buf).1,
                  resp_buf := (drain (pushAll s.rx e.arrivals) s.resp_buf).2,
                  retry := s.retry + 1, sm := SmState.sending }
                  (es.take j)).sm ≠ SmState.idle := by
              intro j hj hjl
              have H := hmin (j + 1) (by omega) (by rw [hlen]; omega)
              rw [List.take_succ_cons, stateAfter_cons, ht] at H
              exact H
            rw [stateAfter_cons, ht] at hdone hv
            obtain ⟨hev, hcnt, hhd⟩ := ih { s with
                rx := (drain (pushAll s.rx e.arrivals) s.resp_buf).1,
                resp_buf := (drain (pushAll s.rx e.arrivals) s.resp_buf).2,
                retry := s.retry + 1, sm := SmState.sending } hcb hah
              (Or.inl rfl) hmin2 hdone hv
            refine ⟨?_, hcnt, hhd⟩
            rw [show (([] : List RdmEvent) ++
              (runTicks { s with
                rx := (drain (pushAll s.rx e.arrivals) s.resp_buf).1,
                resp_buf := (drain (pushAll s.rx e.arrivals) s.resp_buf).2,
                retry := s.retry + 1, sm := SmState.sending } es).2) =
              (runTicks { s with
                rx := (drain (pushAll s.rx e.arrivals) s.resp_buf).1,
                resp_buf := (drain (pushAll s.rx e.arrivals) s.resp_buf).2,
                retry := s.retry + 1, sm := SmState.sending } es).2
              from List.nil_append _, hev]
          · -- timeout with retries exhausted: would deliver failure, but
            -- then the final buffer could not validate
            have ht := tick_waiting_fail e.now e.now2 e.bus
              { s with rx := pushAll s.rx e.arrivals } h hvd hel hrt
            exfalso
            cases es with
            | cons e2 es2 =>
              have H := hmin 1 one_pos (by rw [hlen]; simp)
              rw [show (e :: e2 :: es2).take 1 = [e] from rfl, stateAfter_one,
                ht] at H
              exact H rfl
            | nil =>
              rw [stateAfter_cons, ht] at hv
              rw [show (stateAfter { s with
                  rx := (drain (pushAll s.rx e.arrivals) s.resp_buf).1,
                  resp_buf := (drain (pushAll s.rx e.arrivals) s.resp_buf).2,
                  req_buf := fun j => if j = s.active_idx then
                    { s.req_buf s.active_idx with in_use := false }
                    else s.req_buf j,
                  req_head := (s.req_head + 1) % RDM_REQUEST_BUFFER_SIZE,
                  req_count := s.req_count - 1,
                  sm := SmState.idle, bus_busy := false } []) = { s with
                  rx := (drain (pushAll s.rx e.arrivals) s.resp_buf).1,
                  resp_buf := (drain (pushAll s.rx e.arrivals) s.resp_buf).2,
                  req_buf := fun j => if j = s.active_idx then
                    { s.req_buf s.active_idx with in_use := false }
                    else s.req_buf j,
                  req_head := (s.req_head + 1) % RDM_REQUEST_BUFFER_SIZE,
                  req_count := s.req_count - 1,
                  sm := SmState.idle, bus_busy := false } from rfl] at hv
              rw [show ({ s with
                  rx := (drain (pushAll s.rx e.arrivals) s.resp_buf).1,
                  resp_buf := (drain (pushAll s.rx e.arrivals) s.resp_buf).2,
                  req_buf := fun j => if j = s.active_idx then
                    { s.req_buf s.active_idx with in_use := false }
                    else s.req_buf j,
                  req_head := (s.req_head + 1) % RDM_REQUEST_BUFFER_SIZE,
                  req_count := s.req_count - 1,
                  sm := SmState.idle, bus_busy := false } : RdmState).resp_buf
                = (drain (pushAll s.rx e.arrivals) s.resp_buf).2 from rfl] at hv
              rw [hv] at hvd
              exact absurd hvd (by simp)
        · -- no timeout yet: stutter and keep collecting
          have ht := tick_waiting_stutter e.now e.now2 e.bus
            { s with rx := pushAll s.rx e.arrivals } h hvd
            (Nat.lt_of_not_le hel)
          rw [runTicks_cons, stateAfter_cons, ht]
          dsimp only
          have hmin2 : ∀ j, 0 < j → j < es.length →
              (stateAfter { s with
                rx := (drain (pushAll s.rx e.arrivals) s.resp_buf).1,
                resp_buf := (drain (pushAll s.rx e.arrivals) s.resp_buf).2 }
                (es.take j)).sm ≠ SmState.idle := by
            intro j hj hjl
            have H := hmin (j + 1) (by omega) (by rw [hlen]; omega)
            rw [List.take_succ_cons, stateAfter_cons, ht] at H
            exact H
          rw [stateAfter_cons, ht] at hdone hv
          obtain ⟨hev, hcnt, hhd⟩ := ih { s with
              rx := (drain (pushAll s.rx e.arrivals) s.resp_buf).1,
              resp_buf := (drain (pushAll s.rx e.arrivals) s.resp_buf).2 }
            hcb hah (Or.inr h) hmin2 hdone hv
          refine ⟨?_, hcnt, hhd⟩
          rw [List.nil_append, hev]

/- ── Claim C1 ────────────────────────────────────────────────────────── -/

/-- C1: for a transaction picked up from the queue head, if the collected
responses never validate, the engine performs exactly 1 + RDM_RETRY_COUNT
= 3 bus send attempts of the identical request bytes and then invokes the
Response Router exactly once with the failure sentinel (absent payload,
length 0) and the original requester address and port, after which the
queue head is popped and the state returns to idle; and if the collected
response validates, the Router is invoked exactly once, with the collected
response bytes.  The run envs covers exactly one transaction: it ends the
first time the machine returns to idle. -/
theorem c1_transaction_attempts_and_router (envs : List TickEnv)
    (s0 : RdmState)
    (h0 : s0.sm = SmState.idle) (h1 : 0 < s0.req_count)
    (hcb : s0.cb_set = true) (hne : envs ≠ [])
    (hmin : ∀ j, j < envs.length → 0 < j →
      (stateAfter s0 (envs.take j)).sm ≠ SmState.idle)
    (hdone : (stateAfter s0 envs).sm = SmState.idle) :
    ((∀ j, j ≤ envs.length → 0 < j →
        rdm_validate_response ((stateAfter s0 (envs.take j)).resp_buf)
          = false) →
      (runTicks s0 envs).2 =
        List.replicate (1 + RDM_RETRY_COUNT)
          (RdmEvent.busSend (s0.req_buf s0.req_head).data) ++
        [RdmEvent.router none 0 (s0.req_buf s0.req_head).src_ip
          (s0.req_buf s0.req_head).src_port] ∧
      (runTicks s0 envs).1.req_count = s0.req_count - 1 ∧
      (runTicks s0 envs).1.req_head =
        (s0.req_head + 1) % RDM_REQUEST_BUFFER_SIZE ∧
      (runTicks s0 envs).1.sm = SmState.idle) ∧
    (rdm_validate_response ((stateAfter s0 envs).resp_buf) = true →
      (runTicks s0 envs).2.filter isRouterEv =
        [RdmEvent.router (some ((stateAfter s0 envs).resp_buf))
          ((stateAfter s0 envs).resp_buf).length
          (s0.req_buf s0.req_head).src_ip (s0.req_buf s0.req_head).src_port] ∧
      (runTicks s0 envs).1.req_count = s0.req_count - 1 ∧
      (runTicks s0 envs).1.req_head =
        (s0.req_head + 1) % RDM_REQUEST_BUFFER_SIZE ∧
      (runTicks s0 envs).1.sm = SmState.idle) := by
  cases envs with
  | nil => exact absurd rfl hne
  | cons e es =>
    have hlen : (e :: es).length = es.length + 1 := rfl
    have ht := tick_idle_pickup e.now e.now2 e.bus
      { s0 with rx := pushAll s0.rx e.arrivals } h0 h1
    have hmin2 : ∀ j, 0 < j → j < es.length →
        (stateAfter { s0 with
          active_idx := s0.req_head, retry := 0,
          rx := rx_flush (pushAll s0.rx e.arrivals), bus_busy := true,
          timeout_start_ms := e.now2, resp_buf := [],
          sm := SmState.waiting_response } (es.take j)).sm
        ≠ SmState.idle := by
      intro j hj hjl
      have H := hmin (j + 1) (by rw [hlen]; omega) (by omega)
      rw [List.take_succ_cons, stateAfter_cons, ht] at H
      exact H
    have hdone2 : (stateAfter { s0 with
        active_idx := s0.req_head, retry := 0,
        rx := rx_flush (pushAll s0.rx e.arrivals), bus_busy := true,
        timeout_start_ms := e.now2, resp_buf := [],
        sm := SmState.waiting_response } es).sm = SmState.idle := by
      rw [stateAfter_cons, ht] at hdone
      exact hdone
    constructor
    · -- failure path
      intro hnv
      have hnv2 : ∀ j, 0 < j → j ≤ es.length →
          rdm_validate_response ((stateAfter { s0 with
            active_idx := s0.req_head, retry := 0,
            rx := rx_flush (pushAll s0.rx e.arrivals), bus_busy := true,
            timeout_start_ms := e.now2, resp_buf := [],
            sm := SmState.waiting_response } (es.take j)).resp_buf)
          = false := by
        intro j hj hjl
        have H := hnv (j + 1) (by rw [hlen]; omega) (by omega)
        rw [List.take_succ_cons, stateAfter_cons, ht] at H
        exact H
      obtain ⟨hev, hcnt, hhd⟩ := runTicks_fail es { s0 with
          active_idx := s0.req_head, retry := 0,
          rx := rx_flush (pushAll s0.rx e.arrivals), bus_busy := true,
          timeout_start_ms := e.now2, resp_buf := [],
          sm := SmState.waiting_response } hcb rfl (Or.inr rfl)
        (Nat.zero_le _) hmin2 hdone2 hnv2
      refine ⟨?_, ?_, ?_, hdone⟩
      · rw [runTicks_cons, ht]
        dsimp only
        rw [hev]
        rfl
      · rw [runTicks_cons]
        dsimp only
        rw [ht]
        exact hcnt
      · rw [runTicks_cons]
        dsimp only
        rw [ht]
        exact hhd
    · -- success path
      intro hv
      rw [stateAfter_cons, ht] at hv
      obtain ⟨hev, hcnt, hhd⟩ := runTicks_succeed es { s0 with
          active_idx := s0.req_head, retry := 0,
          rx := rx_flush (pushAll s0.rx e.arrivals), bus_busy := true,
          timeout_start_ms := e.now2, resp_buf := [],
          sm := SmState.waiting_response } hcb rfl (Or.inr rfl)
        hmin2 hdone2 hv
      refine ⟨?_, ?_, ?_, hdone⟩
      · rw [runTicks_cons, stateAfter_cons, ht]
        dsimp only
        rw [List.filter_append, hev]
        rfl
      · rw [runTicks_cons]
        dsimp only
        rw [ht]
        exact hcnt
      · rw [runTicks_cons]
        dsimp only
        rw [ht]
        exact hhd

/-- Example request, ring and engine state for concrete runs. -/
def exReq : RdmRequest := ⟨[204, 1, 24], 3, 77, 88, true⟩

def exRx0 : RxQueue := ⟨fun _ => 0, 0, 0⟩

def exState1 : RdmState :=
  ⟨fun _ => exReq, 0, 1, 1, SmState.idle, 0, 0, 0, [], exRx0, [], false, [],
    0, false, false, true⟩

/-- A six-tick environment with no response bytes at all: pickup and send,
timeout, resend, timeout, resend, final timeout. -/
def exEnvF : List TickEnv :=
  [⟨[], 0, 0, fun _ => []⟩, ⟨[], 200, 200, fun _ => []⟩,
   ⟨[], 200, 200, fun _ => []⟩, ⟨[], 400, 400, fun _ => []⟩,
   ⟨[], 400, 400, fun _ => []⟩, ⟨[], 600, 600, fun _ => []⟩]

/-- Witness for C1 at a concrete silent bus: three identical sends then one
failure-sentinel router call. -/
theorem c1_witness :
    (runTicks exState1 exEnvF).2 =
      List.replicate (1 + RDM_RETRY_COUNT)
        (RdmEvent.busSend (exState1.req_buf exState1.req_head).data) ++
      [RdmEvent.router none 0 (exState1.req_buf exState1.req_head).src_ip
        (exState1.req_buf exState1.req_head).src_port] ∧
    (runTicks exState1 exEnvF).1.req_count = exState1.req_count - 1 ∧
    (runTicks exState1 exEnvF).1.req_head =
      (exState1.req_head + 1) % RDM_REQUEST_BUFFER_SIZE ∧
    (runTicks exState1 exEnvF).1.sm = SmState.idle :=
  (c1_transaction_attempts_and_router exEnvF exState1 rfl (by decide) rfl
    (by simp [exEnvF]) (by decide) (by decide)).1 (by decide)

/- ── Claim C2 ────────────────────────────────────────────────────────── -/

/-- Equivalence between the C validation and the spec-side validity
predicate, shared by several developments below.  The extra len < 4 guard
of the C code never changes the outcome: buffers shorter than 4 bytes can
never satisfy the spec-side conditions. -/
theorem validate_iff_spec_aux (buf : List Nat) :
    rdm_validate_response buf = true ↔ validResponseSpec buf := by
  constructor
  · intro hL
    by_cases h4 : buf.length < 4
    · simp [rdm_validate_response, h4] at hL
    · by_cases hsc : buf.getD 0 0 ≠ RDM_SC_RDM ∨
          buf.getD 1 0 ≠ RDM_SC_SUB_MESSAGE
      · simp only [rdm_validate_response, if_neg h4, if_pos hsc] at hL
        exact absurd hL (by simp)
      · by_cases hml : buf.length < buf.getD 2 0 + 2
        · simp only [rdm_validate_response, if_neg h4, if_neg hsc,
            if_pos hml] at hL
          exact absurd hL (by simp)
        · push_neg at hsc
          simp only [rdm_validate_response, if_neg h4, if_neg hml] at hL
          rw [if_neg (by push_neg; exact hsc), decide_eq_true_eq] at hL
          exact ⟨hsc.1, hsc.2, by omega, hL⟩
  · rintro ⟨h0, h1, hml, hsum⟩
    have h4 : ¬ buf.length < 4 := by
      rcases buf with _ | ⟨a, _ | ⟨b, _ | ⟨c, _ | ⟨d, rest⟩⟩⟩⟩
      · simp [List.getD, RDM_SC_RDM] at h0
      · simp [List.getD, RDM_SC_SUB_MESSAGE] at h1
      · exfalso
        simp [List.getD, RDM_SC_RDM, RDM_SC_SUB_MESSAGE] at h0 h1 hsum
        simp [rdm_checksum] at hsum
        omega
      · exfalso
        simp [List.getD, RDM_SC_RDM, RDM_SC_SUB_MESSAGE] at h0 h1 hml hsum
        subst h0 h1
        interval_cases c
        · simp [rdm_checksum] at hsum
        · simp [rdm_checksum, List.getD] at hsum
      · simp
    simp only [rdm_validate_response, if_neg h4,
      if_neg (show ¬(buf.getD 0 0 ≠ RDM_SC_RDM ∨
        buf.getD 1 0 ≠ RDM_SC_SUB_MESSAGE) by push_neg; exact ⟨h0, h1⟩),
      if_neg (show ¬ buf.length < buf.getD 2 0 + 2 by omega),
      decide_eq_true_eq]
    exact hsum

/-- C2: a collected response is judged valid by rdm_validate_response if
and only if it begins with the two RDM start-code bytes 0xCC then 0x01,
its declared message-length field (the byte at index 2) is consistent
with the number of bytes collected (msg_len + 2 checksum bytes all
collected), and the two checksum bytes at indices msg_len and msg_len+1,
read big-endian, equal the 16-bit arithmetic sum modulo 65536 of the
first msg_len bytes. -/
theorem c2_validate_iff_spec (buf : List Nat) :
    rdm_validate_response buf = true ↔ validResponseSpec buf :=
  validate_iff_spec_aux buf

/-- Witness for C2: a concrete 5-byte response with matching checksum
satisfies the spec-side validity predicate via the equivalence. -/
theorem c2_witness : validResponseSpec [204, 1, 3, 0, 208] :=
  (c2_validate_iff_spec [204, 1, 3, 0, 208]).mp (by decide)

/- ── Claim C9 ────────────────────────────────────────────────────────── -/

/-- C9 (implicit): a collected response longer than its declared message
length plus the two checksum bytes is still judged valid — appending
trailing bytes to a valid response never invalidates it — and in that case
the Response Router receives the entire collected buffer with its full
collected length, trailing bytes included, not the declared length. -/
theorem c9_trailing_bytes_accepted :
    (∀ core extra : List Nat, rdm_validate_response core = true →
      rdm_validate_response (core ++ extra) = true) ∧
    (∀ (s : RdmState) (now now2 : Nat) (bus : Nat → List Nat),
      s.sm = SmState.waiting_response → s.cb_set = true →
      rdm_validate_response (drain s.rx s.resp_buf).2 = true →
      (drain s.rx s.resp_buf).2.getD 2 0 + 2 <
        (drain s.rx s.resp_buf).2.length →
      (rdm_task now now2 bus s).2 =
        [RdmEvent.router (some (drain s.rx s.resp_buf).2)
          (drain s.rx s.resp_buf).2.length
          (s.req_buf s.active_idx).src_ip
          (s.req_buf s.active_idx).src_port]) := by
  constructor
  · intro core extra hc
    have h4 : ¬ core.length < 4 := by
      intro hlt
      simp [rdm_validate_response, hlt] at hc
    rw [validate_iff_spec_aux] at hc ⊢
    obtain ⟨h0, h1, hml, hsum⟩ := hc
    have hl0 : (0 : Nat) < core.length := by omega
    have hl1 : (1 : Nat) < core.length := by omega
    have hl2 : (2 : Nat) < core.length := by omega
    have hlm : core.getD 2 0 < core.length := by omega
    have hlm1 : core.getD 2 0 + 1 < core.length := by omega
    refine ⟨?_, ?_, ?_, ?_⟩
    · rwa [List.getD_append _ _ _ _ hl0]
    · rwa [List.getD_append _ _ _ _ hl1]
    · rw [List.getD_append _ _ _ _ hl2]
      simp only [List.length_append]
      omega
    · rw [List.getD_append _ _ _ _ hl2, List.getD_append _ _ _ _ hlm,
        List.getD_append _ _ _ _ hlm1]
      unfold rdm_checksum
      rw [List.take_append_of_le_length (by omega)]
      exact hsum
  · intro s now now2 bus hsm hcb hv hgt
    rw [tick_waiting_valid now now2 bus s hsm hv]
    simp [hcb]

/-- Concrete waiting-state with a fully collected response that has two
trailing bytes beyond the declared length. -/
def exStateTrail : RdmState :=
  ⟨fun _ => exReq, 0, 1, 1, SmState.waiting_response, 0, 0, 0,
    [204, 1, 3, 0, 208, 9, 9], exRx0, [], false, [], 0, false, true, true⟩

/-- Witness for C9: the 7-byte buffer with 2 trailing junk bytes validates
and is delivered whole, with length 7, to the router. -/
theorem c9_witness :
    rdm_validate_response ([204, 1, 3, 0, 208] ++ [9, 9]) = true ∧
    (rdm_task 0 0 (fun _ => []) exStateTrail).2 =
      [RdmEvent.router (some (drain exStateTrail.rx exStateTrail.resp_buf).2)
        (drain exStateTrail.rx exStateTrail.resp_buf).2.length
        (exStateTrail.req_buf exStateTrail.active_idx).src_ip
        (exStateTrail.req_buf exStateTrail.active_idx).src_port] :=
  ⟨c9_trailing_bytes_accepted.1 [204, 1, 3, 0, 208] [9, 9] (by decide),
   c9_trailing_bytes_accepted.2 exStateTrail 0 0 (fun _ => []) rfl rfl
     (by decide) (by decide)⟩

/- ── Claim C3 ────────────────────────────────────────────────────────── -/

/-- C3: rdm_enqueue_request accepts exactly when the occupied count is
strictly below the capacity 5 and the length does not exceed the maximum
RDM packet size 257; a rejected call returns false and leaves the state
unchanged; an accepted request is appended at the tail of the abstract
FIFO (preserving the ring invariant), and the request served next by an
idle tick is the head of the abstract FIFO. -/
theorem c3_enqueue_bounds_and_fifo (s : RdmState) (data : List Nat)
    (len src_ip src_port now now2 : Nat) (bus : Nat → List Nat) :
    ((rdm_enqueue_request s data len src_ip src_port).2 = true ↔
      s.req_count < RDM_REQUEST_BUFFER_SIZE ∧ len ≤ RDM_MAX_PACKET_SIZE) ∧
    ((rdm_enqueue_request s data len src_ip src_port).2 = false →
      (rdm_enqueue_request s data len src_ip src_port).1 = s) ∧
    (QInv s → s.req_count < RDM_REQUEST_BUFFER_SIZE →
      len ≤ RDM_MAX_PACKET_SIZE →
      absQ (rdm_enqueue_request s data len src_ip src_port).1 =
        absQ s ++ [⟨data.take len, len, src_ip, src_port, true⟩] ∧
      QInv (rdm_enqueue_request s data len src_ip src_port).1) ∧
    (QInv s → 0 < s.req_count → s.sm = SmState.idle →
      (rdm_task now now2 bus s).2 =
        [RdmEvent.busSend ((absQ s).headD ⟨[], 0, 0, 0, false⟩).data]) := by
  refine ⟨?_, ?_, ?_, ?_⟩
  · constructor
    · intro hacc
      by_cases h1 : RDM_REQUEST_BUFFER_SIZE ≤ s.req_count
      · simp [rdm_enqueue_request, h1] at hacc
      · by_cases h2 : RDM_MAX_PACKET_SIZE < len
        · simp [rdm_enqueue_request, h1, h2] at hacc
        · exact ⟨by omega, by omega⟩
    · rintro ⟨hc, hl⟩
      rw [rdm_enqueue_request,
        if_neg (by omega : ¬ RDM_REQUEST_BUFFER_SIZE ≤ s.req_count),
        if_neg (by omega : ¬ RDM_MAX_PACKET_SIZE < len)]
  · intro hrej
    by_cases h1 : RDM_REQUEST_BUFFER_SIZE ≤ s.req_count
    · simp [rdm_enqueue_request, h1]
    · by_cases h2 : RDM_MAX_PACKET_SIZE < len
      · simp [rdm_enqueue_request, h1, h2]
      · simp [rdm_enqueue_request, h1, h2] at hrej
  · intro hq hcnt hlen
    obtain ⟨hh, hc, htl⟩ := hq
    have h1 : ¬ RDM_REQUEST_BUFFER_SIZE ≤ s.req_count := by omega
    have h2 : ¬ RDM_MAX_PACKET_SIZE < len := by omega
    have henq : rdm_enqueue_request s data len src_ip src_port =
        ({ s with
            req_buf := fun j => if j = s.req_tail then
              ⟨data.take len, len, src_ip, src_port, true⟩ else s.req_buf j,
            req_tail := (s.req_tail + 1) % RDM_REQUEST_BUFFER_SIZE,
            req_count := s.req_count + 1 }, true) := by
      simp [rdm_enqueue_request, h1, h2]
    rw [henq]
    constructor
    · simp only [absQ, List.range_succ, List.map_append, List.map_cons,
        List.map_nil]
      congr 1
      · apply List.map_congr_left
        intro i hi
        simp only [List.mem_range] at hi
        have hidx : (s.req_head + i) % RDM_REQUEST_BUFFER_SIZE
            ≠ s.req_tail := by
          simp only [RDM_REQUEST_BUFFER_SIZE] at *
          omega
        simp only [if_neg hidx]
      · have hidx : (s.req_head + s.req_count) % RDM_REQUEST_BUFFER_SIZE
            = s.req_tail := by
          simp only [RDM_REQUEST_BUFFER_SIZE] at *
          omega
        simp only [if_pos hidx]
    · refine ⟨hh, by simp only [RDM_REQUEST_BUFFER_SIZE] at *; omega, ?_⟩
      simp only [RDM_REQUEST_BUFFER_SIZE] at *
      omega
  · intro hq hcnt hsm
    obtain ⟨hh, hc, htl⟩ := hq
    rw [tick_idle_pickup now now2 bus s hsm hcnt]
    obtain ⟨k, hk⟩ : ∃ k, s.req_count = k + 1 := ⟨s.req_count - 1, by omega⟩
    have habs : (absQ s).headD ⟨[], 0, 0, 0, false⟩ =
        s.req_buf s.req_head := by
      rw [absQ, hk, List.range_succ_eq_map]
      simp [Nat.mod_eq_of_lt hh]
    rw [habs]

/- ── Claim C7 ────────────────────────────────────────────────────────── -/

/-- C7: absent an intervening discovery cycle, two consecutive calls to
rdm_get_tod return identical tables (same entries and same count), and
after the first call the changed flag is cleared, so rdm_tod_changed and
the flag observed by the second call are false. -/
theorem c7_get_tod_idempotent (s : RdmState) :
    (rdm_get_tod s).1 = (rdm_get_tod (rdm_get_tod s).2).1 ∧
    (rdm_get_tod s).2.tod_changed = false ∧
    rdm_tod_changed (rdm_get_tod s).2 = false ∧
    (rdm_get_tod (rdm_get_tod s).2).2.tod_changed = false :=
  ⟨rfl, rfl, rfl, rfl⟩

/- ── Claim C5 ────────────────────────────────────────────────────────── -/

theorem tick_waiting_tod_changed (now now2 : Nat) (bus : Nat → List Nat)
    (s : RdmState) (hsm : s.sm = SmState.waiting_response) :
    (rdm_task now now2 bus s).1.tod_changed = s.tod_changed := by
  by_cases hv : rdm_validate_response (drain s.rx s.resp_buf).2 = true
  · rw [tick_waiting_valid now now2 bus s hsm hv]
  · rw [Bool.not_eq_true] at hv
    by_cases hel : RDM_RESPONSE_TIMEOUT_MS ≤ elapsed32 now s.timeout_start_ms
    · by_cases hrt : s.retry < RDM_RETRY_COUNT
      · rw [tick_waiting_retry now now2 bus s hsm hv hel hrt]
      · rw [tick_waiting_fail now now2 bus s hsm hv hel hrt]
    · rw [tick_waiting_stutter now now2 bus s hsm hv (Nat.lt_of_not_le hel)]

/-- C5 counterexample: the claim states that rdm_flush_tod does not modify
the changed flag; on a state with the flag clear, rdm_flush_tod sets it. -/
theorem c5_counterexample_flush_sets_flag :
    exState1.tod_changed = false ∧
    (rdm_flush_tod exState1).tod_changed = true :=
  ⟨rfl, rfl⟩

/-- C5 (amended): the changed flag is set only by a discovery cycle that
observed a table different from the previous cycle, or by rdm_flush_tod;
it is cleared only by rdm_get_tod; rdm_enqueue_request and rdm_tod_changed
never modify it, and rdm_task never clears it. -/
theorem c5_flag_discipline (s : RdmState) (data : List Nat)
    (len src_ip src_port now now2 : Nat) (bus : Nat → List Nat) :
    (rdm_flush_tod s).tod_changed = true ∧
    (rdm_enqueue_request s data len src_ip src_port).1.tod_changed
      = s.tod_changed ∧
    (rdm_get_tod s).2 = { s with tod_changed := false } ∧
    rdm_tod_changed s = s.tod_changed ∧
    (rdm_task now now2 bus s).1.tod_changed = (s.tod_changed ||
      (discoveryRunsB now s &&
        decide ((run_discovery_cycle bus).tod.length ≠ s.tod.length ∨
          (run_discovery_cycle bus).tod ≠ s.tod))) := by
  refine ⟨rfl, ?_, rfl, rfl, ?_⟩
  · by_cases h1 : RDM_REQUEST_BUFFER_SIZE ≤ s.req_count
    · simp [rdm_enqueue_request, h1]
    · by_cases h2 : RDM_MAX_PACKET_SIZE < len
      · simp [rdm_enqueue_request, h1, h2]
      · simp [rdm_enqueue_request, h1, h2]
  · by_cases hidle : s.sm = SmState.idle
    · by_cases hcnt : 0 < s.req_count
      · rw [tick_idle_pickup now now2 bus s hidle hcnt]
        have : decide (s.req_count = 0) = false := by
          simp only [decide_eq_false_iff_not]
          omega
        simp [discoveryRunsB, this]
      · have hc0 : s.req_count = 0 := by omega
        by_cases hrun : s.discovery_active = true ∨
            RDM_DISCOVERY_INTERVAL_MS ≤ elapsed32 now s.discovery_last_ms
        · rw [tick_discovery_run now now2 bus s hidle hc0 hrun]
          have hdr : discoveryRunsB now s = true := by
            rcases hrun with hact | hint
            · simp [discoveryRunsB, hidle, hc0, hact]
            · simp [discoveryRunsB, hidle, hc0, hint]
          rw [hdr]
          simp
        · push_neg at hrun
          obtain ⟨hact, hint⟩ := hrun
          have hact2 : s.discovery_active = false := by
            simpa using hact
          rw [tick_discovery_skip now now2 bus s hidle hc0 hact2 hint]
          have hdr : discoveryRunsB now s = false := by
            simp [discoveryRunsB, hact2, Nat.not_le_of_lt hint]
          rw [hdr]
          simp
    · by_cases hsend : s.sm = SmState.sending
      · rw [tick_sending now now2 bus s hsend]
        simp [discoveryRunsB, hidle]
      · by_cases hw : s.sm = SmState.waiting_response
        · rw [tick_waiting_tod_changed now now2 bus s hw]
          simp [discoveryRunsB, hidle]
        · rw [tick_other now now2 bus s hidle hsend hw]
          simp [discoveryRunsB, hidle]

/- ── Claim C6 ────────────────────────────────────────────────────────── -/

/-- Quiescent state 4 seconds after a discovery cycle, with one device in
the TOD, an empty queue and the bus idle. -/
def exState6 : RdmState :=
  ⟨fun _ => exReq, 0, 0, 0, SmState.idle, 0, 0, 0, [], exRx0,
    [[1, 2, 3, 4, 5, 6]], false, [], 4000, false, false, true⟩

/-- C6: rdm_flush_tod does clear the table, but it does NOT force the next
idle tick to start discovery regardless of elapsed time: flushing zeroes
the timestamp, so the trigger condition now - 0 >= 10000 still fails for
every tick taken during the first 10 s after boot.  At now = 5000 ms the
tick after a flush is a no-op (no bus events, state unchanged), while from
now = 10000 ms on a cycle does start. -/
theorem c6_flush_timer_behaviour :
    (rdm_flush_tod exState6).tod = [] ∧
    rdm_task 5000 5000 (fun _ => []) (rdm_flush_tod exState6) =
      (rdm_flush_tod exState6, []) ∧
    (rdm_task 10000 10000 (fun _ => []) (rdm_flush_tod exState6)).2 ≠ [] := by
  refine ⟨rfl, ?_, ?_⟩
  · exact tick_discovery_skip 5000 5000 (fun _ => []) (rdm_flush_tod exState6)
      rfl rfl rfl (by decide)
  · rw [tick_discovery_run 10000 10000 (fun _ => []) (rdm_flush_tod exState6)
      rfl rfl (Or.inr (by decide))]
    simp [run_discovery_cycle, discLoop]

/- ── Claim C8 ────────────────────────────────────────────────────────── -/

/-- C8: on the 512-slot receive ring a push made while the queue is full
drops the new byte and leaves the ring unchanged (so no unread byte is
ever overwritten); a push on a non-full ring appends the byte at the tail
of the abstract unread sequence; pop returns the head of the abstract
sequence (so every popped byte was previously pushed, in push order).
Full means 511 unread bytes: the ring reserves one slot to distinguish
full from empty. -/
theorem c8_rx_ring_no_overwrite_fifo (q : RxQueue) (b : Nat)
    (hq : RxInv q) :
    ((absRx q).length = 511 → rx_push q b = q) ∧
    ((absRx q).length < 511 →
      absRx (rx_push q b) = absRx q ++ [b] ∧ RxInv (rx_push q b)) ∧
    ((rx_pop q).1 = (absRx q).head? ∧
      absRx (rx_pop q).2 = (absRx q).tail ∧ RxInv (rx_pop q).2) := by
  refine ⟨?_, ?_, rx_pop_spec q hq⟩
  · intro h
    rw [absRx_length] at h
    exact rx_push_full q b hq h
  · intro h
    rw [absRx_length] at h
    exact rx_push_not_full q b hq h

/-- Witness for C8 at the empty ring: a push appends, a pop returns the
abstract head. -/
theorem c8_witness :
    (absRx (rx_push exRx0 7) = absRx exRx0 ++ [7] ∧ RxInv (rx_push exRx0 7)) ∧
    (rx_pop exRx0).1 = (absRx exRx0).head? :=
  ⟨(c8_rx_ring_no_overwrite_fifo exRx0 7 ⟨by decide, by decide⟩).2.1
      (by decide),
   (c8_rx_ring_no_overwrite_fifo exRx0 7 ⟨by decide, by decide⟩).2.2.1⟩

/-- Witness for C3: enqueue on a one-element queue appends at the tail of
the abstraction, and the idle tick serves the abstract head. -/
theorem c3_witness :
    (absQ (rdm_enqueue_request exState1 [1, 2] 2 9 10).1 =
      absQ exState1 ++ [⟨[1, 2], 2, 9, 10, true⟩] ∧
      QInv (rdm_enqueue_request exState1 [1, 2] 2 9 10).1) ∧
    (rdm_task 0 0 (fun _ => []) exState1).2 =
      [RdmEvent.busSend ((absQ exState1).headD ⟨[], 0, 0, 0, false⟩).data] :=
  ⟨(c3_enqueue_bounds_and_fifo exState1 [1, 2] 2 9 10 0 0
      (fun _ => [])).2.2.1 ⟨by decide, by decide, by decide⟩ (by decide)
      (by decide),
   (c3_enqueue_bounds_and_fifo exState1 [1, 2] 2 9 10 0 0
      (fun _ => [])).2.2.2 ⟨by decide, by decide, by decide⟩ (by decide) rfl⟩

/- ── Claims C4 and C10: discovery ────────────────────────────────────── -/

/-- One reply per scripted device: attempt i is answered by device i with
rs[i]; every later attempt is met with silence (the devices are muted). -/
theorem discLoop_devices (rs : List (List Nat)) :
    ∀ (a fuel : Nat) (t : List Uid) (bus : Nat → List Nat),
    (∀ i, i < rs.length → bus (a + i) = rs.getD i []) →
    bus (a + rs.length) = [] →
    rs.length ≤ fuel →
    (∀ r ∈ rs, 7 ≤ r.length) →
    t.length + rs.length ≤ RDM_TOD_MAX_DEVICES →
    (discLoop bus a fuel t).tod = t ++ rs.map decode_uid ∧
    (discLoop bus a fuel t).attempts =
      if rs.length = fuel then fuel else rs.length + 1 := by
  induction rs with
  | nil =>
    intro a fuel t bus _ hsil _ _ _
    have hsil2 : bus a = [] := by simpa using hsil
    cases fuel with
    | zero => simp [discLoop]
    | succ f =>
      rw [discLoop, hsil2]
      simp
  | cons r rest ih =>
    intro a fuel t bus hbus hsil hfuel hwf hcap
    cases fuel with
    | zero => simp at hfuel
    | succ f =>
      have hr0 : bus a = r := by
        have := hbus 0 (by simp)
        simpa using this
      have hrlen : ¬ (bus a).length < 7 := by
        rw [hr0]
        have := hwf r (by simp)
        omega
      rw [discLoop, if_neg hrlen]
      dsimp only
      have hadd : disc_tod_add t (decode_uid r)
          = t ++ [decode_uid r] := by
        rw [disc_tod_add, if_neg (by simp at hcap ⊢; omega)]
      rw [hr0, hadd]
      have hbus2 : ∀ i, i < rest.length →
          bus (a + 1 + i) = rest.getD i [] := by
        intro i hi
        have := hbus (i + 1) (by simp; omega)
        rw [show a + (i + 1) = a + 1 + i by omega] at this
        simpa using this
      have hsil2 : bus (a + 1 + rest.length) = [] := by
        rw [show a + 1 + rest.length = a + (r :: rest).length by simp; omega]
        exact hsil
      obtain ⟨htod, hatt⟩ := ih (a + 1) f (t ++ [decode_uid r]) bus hbus2
        hsil2 (by simp at hfuel; omega) (fun x hx => hwf x (by simp [hx]))
        (by simp at hcap ⊢; omega)
      refine ⟨?_, ?_⟩
      · simp only [htod]
        simp
      · simp only [hatt]
        by_cases hef : rest.length = f
        · simp [hef]
        · rw [if_neg hef, if_neg (by simp; omega)]
          simp

/-- The branch-attempt loop is bounded by its fuel for any bus behaviour. -/
theorem discLoop_attempts_le (fuel : Nat) :
    ∀ (bus : Nat → List Nat) (a : Nat) (t : List Uid),
    (discLoop bus a fuel t).attempts ≤ fuel := by
  induction fuel with
  | zero => intro bus a t; simp [discLoop]
  | succ f ih =>
    intro bus a t
    rw [discLoop]
    by_cases hlt : (bus a).length < 7
    · rw [if_pos hlt]
      dsimp only
      omega
    · rw [if_neg hlt]
      dsimp only
      have := ih bus (a + 1) (disc_tod_add t (decode_uid (bus a)))
      omega

/-- C4 (amended: the device count K must not exceed the 64-attempt cap):
for a simulated bus with K ≤ 64 distinct devices, each answering one
unique-branch broadcast with a well-formed reply of at least 17 bytes and
staying silent after being muted, one discovery cycle appends exactly K
entries to the TOD — the decoded UIDs in discovery order — using at most
K + 1 branch attempts; and for any bus behaviour whatsoever the loop
performs at most 64 attempts. -/
theorem c4_discovery_convergence (rs : List (List Nat)) (K : Nat)
    (hK : rs.length = K) (hK64 : K ≤ 64)
    (hwf : ∀ r ∈ rs, 17 ≤ r.length)
    (_hdist : (rs.map decode_uid).Nodup) :
    (run_discovery_cycle (fun n => rs.getD n [])).tod = rs.map decode_uid ∧
    (run_discovery_cycle (fun n => rs.getD n [])).tod.length = K ∧
    (run_discovery_cycle (fun n => rs.getD n [])).attempts ≤ K + 1 ∧
    (∀ bus : Nat → List Nat, (run_discovery_cycle bus).attempts ≤ 64) := by
  obtain ⟨htod, hatt⟩ := discLoop_devices rs 0 64 []
    (fun n => rs.getD n [])
    (fun i hi => by rw [Nat.zero_add])
    (by rw [Nat.zero_add]; exact List.getD_eq_default _ _ (Nat.le_refl _))
    (by omega) (fun r hr => by have := hwf r hr; omega)
    (by simp only [List.length_nil, RDM_TOD_MAX_DEVICES]; omega)
  refine ⟨?_, ?_, ?_, ?_⟩
  · rw [run_discovery_cycle, htod]
    simp
  · rw [run_discovery_cycle, htod]
    simp [hK]
  · rw [run_discovery_cycle, hatt]
    by_cases he : rs.length = 64
    · rw [if_pos he]
      omega
    · rw [if_neg he]
      omega
  · intro bus
    exact discLoop_attempts_le 64 bus 0 []

/-- Branch reply of scripted device i: 17 bytes encoding the UID
i mod 256 in the two nibble bytes after the preamble separator. -/
def mkReply (i : Nat) : List Nat :=
  [0, i % 16, i / 16] ++ List.replicate 14 0

/-- A bus with 65 distinct devices, each answering exactly one broadcast
with a well-formed 17-byte reply. -/
def exBus65 : Nat → List Nat :=
  fun n => ((List.range 65).map mkReply).getD n []

/-- C4 counterexample: with 65 distinct devices, all scenario conditions
of the claim hold, yet one discovery cycle appends only 64 TOD entries,
not K = 65 — the 64-attempt cap truncates the table. -/
theorem c4_counterexample_65_devices :
    ((List.range 65).map mkReply).length = 65 ∧
    (∀ r ∈ (List.range 65).map mkReply, 17 ≤ r.length) ∧
    (((List.range 65).map mkReply).map decode_uid).Nodup ∧
    (run_discovery_cycle exBus65).tod.length = 64 := by
  refine ⟨by decide, by decide, by decide, by decide⟩

/-- Witness for C4 at a concrete two-device bus. -/
theorem c4_witness :
    (run_discovery_cycle
        (fun n => ([mkReply 1, mkReply 2]).getD n [])).tod =
      [mkReply 1, mkReply 2].map decode_uid ∧
    (run_discovery_cycle
        (fun n => ([mkReply 1, mkReply 2]).getD n [])).tod.length = 2 ∧
    (run_discovery_cycle
        (fun n => ([mkReply 1, mkReply 2]).getD n [])).attempts ≤ 3 ∧
    (∀ bus : Nat → List Nat, (run_discovery_cycle bus).attempts ≤ 64) :=
  c4_discovery_convergence [mkReply 1, mkReply 2] 2 rfl (by decide)
    (by decide) (by decide)

/-- C10 (implicit): during a discovery cycle a branch reply of length at
least 7 but below 17 does not end the cycle: the decoded UID falls back
to all-zeros, a mute addressed to the all-zero UID is sent, the all-zero
UID is appended to the in-progress TOD (which holds fewer than 256
entries during a 64-attempt cycle), and the loop proceeds with the next
attempt; only a reply shorter than 7 bytes ends the cycle. -/
theorem c10_short_reply_zero_uid (bus : Nat → List Nat) (a fuel : Nat)
    (t : List Uid) :
    (7 ≤ (bus a).length → (bus a).length < 17 →
      t.length < RDM_TOD_MAX_DEVICES →
      decode_uid (bus a) = List.replicate 6 0 ∧
      discLoop bus a (fuel + 1) t =
        ⟨(discLoop bus (a + 1) fuel (t ++ [List.replicate 6 0])).tod,
          build_disc_unique_branch (List.replicate 6 0)
              (List.replicate 6 0xFF) ::
            build_disc_mute (List.replicate 6 0) ::
            (discLoop bus (a + 1) fuel (t ++ [List.replicate 6 0])).sends,
          (discLoop bus (a + 1) fuel
            (t ++ [List.replicate 6 0])).attempts + 1⟩) ∧
    ((bus a).length < 7 →
      discLoop bus a (fuel + 1) t =
        ⟨t, [build_disc_unique_branch (List.replicate 6 0)
          (List.replicate 6 0xFF)], 1⟩) := by
  constructor
  · intro h7 h17 hcap
    have hdec : decode_uid (bus a) = List.replicate 6 0 := by
      rw [decode_uid, if_neg (by omega)]
    refine ⟨hdec, ?_⟩
    have hadd : disc_tod_add t (List.replicate 6 0)
        = t ++ [List.replicate 6 0] := by
      rw [disc_tod_add, if_neg (by omega)]
    rw [discLoop, if_neg (by omega)]
    dsimp only
    rw [hdec, hadd]
  · intro h7
    rw [discLoop, if_pos h7]

/-- Witness for C10: a 10-byte reply yields the all-zero UID and the loop
continues; a 2-byte reply ends the cycle. -/
theorem c10_witness :
    (decode_uid ((fun _ => List.replicate 10 5) 0) = List.replicate 6 0 ∧
      discLoop (fun _ => List.replicate 10 5) 0 (0 + 1) [] =
        ⟨(discLoop (fun _ => List.replicate 10 5) (0 + 1) 0
            ([] ++ [List.replicate 6 0])).tod,
          build_disc_unique_branch (List.replicate 6 0)
              (List.replicate 6 0xFF) ::
            build_disc_mute (List.replicate 6 0) ::
            (discLoop (fun _ => List.replicate 10 5) (0 + 1) 0
              ([] ++ [List.replicate 6 0])).sends,
          (discLoop (fun _ => List.replicate 10 5) (0 + 1) 0
            ([] ++ [List.replicate 6 0])).attempts + 1⟩) ∧
    discLoop (fun _ => [1, 2]) 0 (0 + 1) [] =
      ⟨[], [build_disc_unique_branch (List.replicate 6 0)
        (List.replicate 6 0xFF)], 1⟩ :=
  ⟨(c10_short_reply_zero_uid (fun _ => List.replicate 10 5) 0 0 []).1
      (by decide) (by decide) (by decide),
   (c10_short_reply_zero_uid (fun _ => [1, 2]) 0 0 []).2 (by decide)⟩

end RdmNode
